import Mathlib

/-!
# FigureLab scene model and editing engine: a shallow embedding

This file embeds the core of the FigureLab diagram editor (React application,
`App.tsx`, `hooks/useHistory.ts`, `utils/svgExport.ts`) in Lean and proves the
specified properties of the history manager, grouping engine, layout engine,
connector router, export sanitization and project loading.

Conventions of the embedding:
* JavaScript IEEE-754 doubles are idealized as rationals (`ℚ`); all arithmetic
  appearing in the embedded operations (`+`, `-`, `*`, `/`, `min`, `max`, `abs`,
  comparisons) agrees with the exact rational result whenever the double
  computation is exact.
* JavaScript strings are Lean `String`s; string helpers (lower-casing, trimming,
  prefix tests, character replacement) are defined over the character list so
  that every definition evaluates inside the kernel.
* Optional object properties are `Option` fields; JavaScript truthiness of a
  value (`undefined`/`""`/`0` are falsy) is modeled explicitly where the code
  relies on it (`x || d`, `x ? a : b`).
* React state setters are modeled as pure state transformers: a call
  `setShapes(f)` becomes an application of the embedded function to the current
  list, which is exactly what the single-threaded event loop performs.
-/

namespace FigureLab

/-! ## History manager (`hooks/useHistory.ts`) -/

/-- The history record of `useHistory`: `{past, present, future}`. -/
structure HistoryState (T : Type u) where
  past : List T
  present : T
  future : List T
deriving DecidableEq

/-- `const MAX_HISTORY_LENGTH = 100`. -/
def MAX_HISTORY_LENGTH : Nat := 100

/-- The trim step of `setState`: `if (newPast.length > MAX_HISTORY_LENGTH) newPast.shift()`,
removing the oldest entry when the bound is exceeded. -/
def trimPast {T : Type u} (newPast : List T) : List T :=
  if MAX_HISTORY_LENGTH < newPast.length then newPast.tail else newPast

/-- `setState(newState, skipHistory)` of `useHistory`: with `skipHistory` replace
`present` only; otherwise append `present` to `past` (trimming the oldest entry
over the bound), set `present` to the new state and clear `future`. -/
def setState {T : Type u} (current : HistoryState T) (newState : T) (skipHistory : Bool) :
    HistoryState T :=
  if skipHistory then
    { current with present := newState }
  else
    { past := trimPast (current.past ++ [current.present]),
      present := newState,
      future := [] }

/-- `undo()` of `useHistory`: no-op on empty `past`; otherwise pop the most recent
`past` entry into `present` and push the old `present` onto the front of `future`. -/
def undo {T : Type u} (current : HistoryState T) : HistoryState T :=
  match current.past.getLast? with
  | none => current
  | some newPresent =>
      { past := current.past.dropLast,
        present := newPresent,
        future := current.present :: current.future }

/-- `redo()` of `useHistory`: no-op on empty `future`; otherwise shift the first
`future` entry into `present` and append the old `present` to `past`. -/
def redo {T : Type u} (current : HistoryState T) : HistoryState T :=
  match current.future with
  | [] => current
  | newPresent :: newFuture =>
      { past := current.past ++ [current.present],
        present := newPresent,
        future := newFuture }

/-- `reset(newInitialState)` of `useHistory`: both stacks cleared. -/
def resetHistory {T : Type u} (newInitialState : T) : HistoryState T :=
  { past := [], present := newInitialState, future := [] }

/-- A sequence of non-skipped `setState` calls applied in order. -/
def applyOps {T : Type u} (h : HistoryState T) (ops : List T) : HistoryState T :=
  ops.foldl (fun st v => setState st v false) h

/-! ## Shape data model (`App.tsx`)

The TypeScript union `AnyShape` is a tagged union over `type`; the kind-specific
payload becomes an inductive, the shared `ShapeBase` fields become the structure
fields. -/

/-- Text alignment values of `TextShape.align`. -/
inductive TextAlign where
  | left
  | center
  | right
deriving DecidableEq

/-- Kind-specific payloads of the `AnyShape` union. -/
inductive ShapeKind where
  | rect (width height : ℚ) (cornerRadius : Option ℚ)
  | circle (radius : ℚ)
  | line (points : List ℚ) (tension : Option ℚ) (closed : Option Bool)
  | arrow (points : List ℚ) (pointerLength pointerWidth : Option ℚ)
  | text (text : String) (fontSize : Option ℚ) (width : Option ℚ) (align : Option TextAlign)
  | image (src : String) (width height : Option ℚ)
  | group (children : List String) (width height : Option ℚ)
deriving DecidableEq

/-- The shared `ShapeBase` fields plus the kind payload. -/
structure Shape where
  id : String
  kind : ShapeKind
  x : ℚ
  y : ℚ
  rotation : Option ℚ := none
  fill : Option String := none
  stroke : Option String := none
  strokeWidth : Option ℚ := none
  draggable : Option Bool := none
  opacity : Option ℚ := none
  name : Option String := none
  groupId : Option String := none
deriving DecidableEq

instance : Inhabited Shape :=
  ⟨{ id := "", kind := ShapeKind.rect 0 0 none, x := 0, y := 0 }⟩

/-- JavaScript `v || d` on an optional numeric property: `undefined` and the
falsy number `0` both fall back to the default. -/
def jsOrQ (v : Option ℚ) (d : ℚ) : ℚ :=
  match v with
  | some q => if q = 0 then d else q
  | none => d

/-- JavaScript truthiness of an optional numeric property. -/
def truthyQ (v : Option ℚ) : Bool :=
  match v with
  | some q => q ≠ 0
  | none => false

/-- JavaScript truthiness of an optional string property: `undefined` and `""`
are falsy. -/
def truthyStr (v : Option String) : Bool :=
  match v with
  | some s => s ≠ ""
  | none => false

/-- Duck-typed `(s as any).width`: the kinds of the union that carry a `width`
property. -/
def anyWidth : ShapeKind → Option ℚ
  | ShapeKind.rect w _ _ => some w
  | ShapeKind.text _ _ w _ => w
  | ShapeKind.image _ w _ => w
  | ShapeKind.group _ w _ => w
  | _ => none

/-- Duck-typed `(s as any).height`. -/
def anyHeight : ShapeKind → Option ℚ
  | ShapeKind.rect _ h _ => some h
  | ShapeKind.image _ _ h => h
  | ShapeKind.group _ _ h => h
  | _ => none

/-- An axis-aligned bounding box `{x, y, w, h}`. -/
structure BBox where
  x : ℚ
  y : ℚ
  w : ℚ
  h : ℚ
deriving DecidableEq, Inhabited

/-- `getBBox` from `App.tsx`: a circle spans `(x-r, y-r, 2r, 2r)`; every other
kind uses its position and `width || 0`, `height || 0`. -/
def getBBox (s : Shape) : BBox :=
  match s.kind with
  | ShapeKind.circle r => ⟨s.x - r, s.y - r, r * 2, r * 2⟩
  | k => ⟨s.x, s.y, jsOrQ (anyWidth k) 0, jsOrQ (anyHeight k) 0⟩

/-! ## Connector router (`routeConnector` in `App.tsx`) -/

/-- The center of the bounding box of a shape. -/
def shapeCenter (s : Shape) : ℚ × ℚ :=
  let b := getBBox s
  (b.x + b.w / 2, b.y + b.h / 2)

/-- The elbow orientation test of `routeConnector`:
`Math.abs(centerA.x - centerB.x) > Math.abs(centerA.y - centerB.y)`. -/
def horizontalFirst (a b : Shape) : Prop :=
  |(shapeCenter a).1 - (shapeCenter b).1| > |(shapeCenter a).2 - (shapeCenter b).2|

instance (a b : Shape) : Decidable (horizontalFirst a b) := by
  unfold horizontalFirst
  infer_instance

/-- `routeConnector(from, to)` from `App.tsx`: a 3-point elbow polyline between
the two bounding-box centers, bending at `(end.x, start.y)` when routed
horizontal-first and at `(start.x, end.y)` otherwise, emitted as the flat
number list `[start.x, start.y, via1.x, via1.y, end.x, end.y]`. -/
def routeConnector (a b : Shape) : List ℚ :=
  let start := shapeCenter a
  let endPt := shapeCenter b
  let via1 := if horizontalFirst a b then (endPt.1, start.2) else (start.1, endPt.2)
  [start.1, start.2, via1.1, via1.2, endPt.1, endPt.2]

/-- Reversal of a 3-point polyline given as a flat 6-number list (start and end
swapped, the bend kept in the middle); other lengths are left untouched. -/
def reversePolyline : List ℚ → List ℚ
  | [ax, ay, bx, by_, cx, cy] => [cx, cy, bx, by_, ax, ay]
  | l => l

/-! ## Grouping engine (`groupSelected` / `ungroupSelected` in `App.tsx`) -/

/-- `Math.min(...xs)` over a list of rationals. The JavaScript result on an
empty list is `+Infinity`, which has no rational counterpart; the embedding
returns `0` there and every theorem below only evaluates it on nonempty lists. -/
def minQ : List ℚ → ℚ
  | [] => 0
  | x :: xs => xs.foldl min x

/-- `Math.max(...xs)` over a list of rationals; `0` stands in for the
JavaScript `-Infinity` on the empty list, which no theorem below exercises. -/
def maxQ : List ℚ → ℚ
  | [] => 0
  | x :: xs => xs.foldl max x

/-- The per-kind right extent used by `groupSelected` for `maxX`:
rect `x + width`; circle `x + radius`; image `x + (width || 300)`;
every other kind `x + 100`. -/
def groupRight (s : Shape) : ℚ :=
  match s.kind with
  | ShapeKind.rect w _ _ => s.x + w
  | ShapeKind.circle r => s.x + r
  | ShapeKind.image _ w _ => s.x + jsOrQ w 300
  | _ => s.x + 100

/-- The per-kind bottom extent used by `groupSelected` for `maxY`:
rect `y + height`; circle `y + radius`; image `y + (height || 200)`;
every other kind `y + 100`. -/
def groupBottom (s : Shape) : ℚ :=
  match s.kind with
  | ShapeKind.rect _ h _ => s.y + h
  | ShapeKind.circle r => s.y + r
  | ShapeKind.image _ _ h => s.y + jsOrQ h 200
  | _ => s.y + 100

/-- `groupSelected` from `App.tsx`, as a pure function of the shape list and the
selection, with the fresh uuid passed in as `gid`. Returns the new shape list
and the new selection. Requires at least 2 selected ids, otherwise a no-op. -/
def groupSelected (gid : String) (shapes : List Shape) (selectedIds : List String) :
    List Shape × List String :=
  if selectedIds.length < 2 then (shapes, selectedIds)
  else
    let selectedShapes := shapes.filter (fun sh => selectedIds.contains sh.id)
    let xs := selectedShapes.map Shape.x
    let ys := selectedShapes.map Shape.y
    let minX := minQ xs
    let minY := minQ ys
    let maxX := maxQ (selectedShapes.map groupRight)
    let maxY := maxQ (selectedShapes.map groupBottom)
    let group : Shape :=
      { id := gid,
        kind := ShapeKind.group selectedIds (some (maxX - minX)) (some (maxY - minY)),
        x := minX,
        y := minY,
        name := some ("Group of " ++ toString selectedIds.length),
        draggable := some true }
    ((shapes.map fun sh =>
        if selectedIds.contains sh.id then { sh with groupId := some gid } else sh) ++ [group],
     [gid])

/-- `ungroupSelected` from `App.tsx`: requires the selection to be exactly one id
that resolves to a group shape; removes the group shape, clears `groupId` on its
listed members and re-selects those members. Otherwise a no-op. -/
def ungroupSelected (shapes : List Shape) (selectedIds : List String) :
    List Shape × List String :=
  match selectedIds with
  | [selectedId] =>
    match shapes.find? (fun s => s.id = selectedId) with
    | some shape =>
      match shape.kind with
      | ShapeKind.group childrenIds _ _ =>
          ((shapes.filter (fun sh => sh.id ≠ selectedId)).map
             (fun sh => if childrenIds.contains sh.id then { sh with groupId := none } else sh),
           childrenIds)
      | _ => (shapes, selectedIds)
    | none => (shapes, selectedIds)
  | _ => (shapes, selectedIds)

/-! ## Layout engine (`alignSelected` / `distribute` in `App.tsx`) -/

/-- Alignment modes of `alignSelected`. -/
inductive AlignMode where
  | left
  | right
  | top
  | bottom
  | hcenter
  | vcenter
deriving DecidableEq

/-- `alignSelected(mode)` from `App.tsx`: canvas-relative alignment of every
selected shape with a 10px margin; `right`/`bottom` test `(sh as any).width`
(resp. `height`) for truthiness, the centering modes use `width || 0`. -/
def alignSelected (mode : AlignMode) (stageWidth stageHeight : ℚ)
    (shapes : List Shape) (selectedIds : List String) : List Shape :=
  if selectedIds.isEmpty then shapes
  else
    shapes.map fun sh =>
      if ¬ selectedIds.contains sh.id then sh
      else
        match mode with
        | AlignMode.left => { sh with x := 10 }
        | AlignMode.right =>
            { sh with x :=
                if truthyQ (anyWidth sh.kind) then
                  stageWidth - jsOrQ (anyWidth sh.kind) 0 - 10
                else stageWidth - 10 }
        | AlignMode.top => { sh with y := 10 }
        | AlignMode.bottom =>
            { sh with y :=
                if truthyQ (anyHeight sh.kind) then
                  stageHeight - jsOrQ (anyHeight sh.kind) 0 - 10
                else stageHeight - 10 }
        | AlignMode.hcenter =>
            { sh with x := max 0 ((stageWidth - jsOrQ (anyWidth sh.kind) 0) / 2) }
        | AlignMode.vcenter =>
            { sh with y := max 0 ((stageHeight - jsOrQ (anyHeight sh.kind) 0) / 2) }

/-- Distribution axes of `distribute`. -/
inductive Axis where
  | h
  | v
deriving DecidableEq

/-- Insertion of one element into a list already processed, placing it before the
first element with a strictly greater key, hence after every element comparing
equal. -/
def insertByKeyLt {α : Type u} (key : α → ℚ) (x : α) : List α → List α
  | [] => [x]
  | y :: ys => if key x < key y then x :: y :: ys else y :: insertByKeyLt key x ys

/-- Stable sort by a rational key: the model of ECMAScript
`Array.prototype.sort` with comparator `(a, b) => key(a) - key(b)`, which the
language specification requires to be stable (ties keep original order). -/
def stableSortBy {α : Type u} (key : α → ℚ) (l : List α) : List α :=
  l.foldl (fun acc x => insertByKeyLt key x acc) []

/-- `distribute(axis)` from `App.tsx`: requires at least 3 selected shapes, else
a no-op. Sorts the selected bounding boxes by min coordinate on the axis
(stably), keeps the first and last fixed, and repositions every interior shape
at `first` edge plus the accumulated sizes and computed gap of the elements
strictly between index 1 and its index. The defaults fed to `headI`/`getLastI`/
`getD` are never reached: the sorted list is nonempty (length at least 3) and
`getD` is only evaluated below an interior index. -/
def distribute (axis : Axis) (shapes : List Shape) (selectedIds : List String) :
    List Shape :=
  let selected := shapes.filter (fun s => selectedIds.contains s.id)
  if selected.length < 3 then shapes
  else
    let axisKey : Shape × BBox → ℚ := fun b => match axis with
      | Axis.h => b.2.x
      | Axis.v => b.2.y
    let axisSize : Shape × BBox → ℚ := fun b => match axis with
      | Axis.h => b.2.w
      | Axis.v => b.2.h
    let boxes := selected.map (fun s => (s, getBBox s))
    let sorted := stableSortBy axisKey boxes
    let first := sorted.headI
    let last := sorted.getLastI
    let span := axisKey last - axisKey first
    let totalSize := (sorted.map axisSize).foldl (fun a c => a + c) 0
    let gaps := (span - (totalSize - axisSize first)) / ((sorted.length : ℚ) - 1)
    shapes.map fun sh =>
      match sorted.findIdx? (fun b => b.1.id = sh.id) with
      | none => sh
      | some idx =>
        if idx = 0 ∨ idx = sorted.length - 1 then sh
        else
          let pos := ((List.range idx).drop 1).foldl
            (fun acc i => acc + axisSize (sorted.getD i first) + gaps)
            (axisKey first + axisSize first)
          match axis with
          | Axis.h => { sh with x := pos }
          | Axis.v => { sh with y := pos }

/-- A shape with its position zeroed out: two shapes agree on every field except
possibly `x`/`y` exactly when their `erasePosition`s are equal. -/
def erasePosition (s : Shape) : Shape :=
  { s with x := 0, y := 0 }

/-! ## Export sanitization (`utils/svgExport.ts` and `exportSVG_Native`)

String helpers are defined over the character list so that they evaluate by
kernel reduction; they model the corresponding JavaScript string methods on the
ASCII strings the export deals with. -/

/-- JavaScript `String.prototype.toLowerCase`, character-wise. -/
def jsToLower (s : String) : String :=
  ⟨s.data.map Char.toLower⟩

/-- JavaScript `String.prototype.trim`: strip leading and trailing whitespace. -/
def jsTrim (s : String) : String :=
  ⟨((s.data.dropWhile Char.isWhitespace).reverse.dropWhile Char.isWhitespace).reverse⟩

/-- Character-list prefix test (JavaScript `String.prototype.startsWith`). -/
def charsPrefixOf : List Char → List Char → Bool
  | [], _ => true
  | _ :: _, [] => false
  | c :: cs, d :: ds => c = d && charsPrefixOf cs ds

/-- JavaScript `String.prototype.startsWith`. -/
def strStartsWith (s pre : String) : Bool :=
  charsPrefixOf pre.data s.data

/-- Global replacement of one character by a string
(JavaScript `String.prototype.replace` with a global single-character pattern). -/
def replaceChar (c : Char) (rep : String) (s : String) : String :=
  ⟨(s.data.map (fun ch => if ch = c then rep.data else [ch])).flatten⟩

/-- `escapeXML` from `svgExport.ts`: empty in, empty out; otherwise the five
chained global replacements `&`, `<`, `>`, `"`, `'`, applied in source order. -/
def escapeXML (str : String) : String :=
  if str = "" then ""
  else
    replaceChar '\'' "&apos;"
      (replaceChar '"' "&quot;"
        (replaceChar '>' "&gt;"
          (replaceChar '<' "&lt;"
            (replaceChar '&' "&amp;" str))))

/-- `sanitizeURL` from `svgExport.ts`: empty URLs pass through as `""`; the
lower-cased, trimmed URL is tested against the scheme denylist and blocked
URLs become `""` (so the caller emits no attribute); everything else is
XML-escaped. -/
def sanitizeURL (url : String) : String :=
  if url = "" then ""
  else
    let lowercaseURL := jsTrim (jsToLower url)
    if strStartsWith lowercaseURL "javascript:" ||
       strStartsWith lowercaseURL "data:text/html" ||
       strStartsWith lowercaseURL "vbscript:" then ""
    else escapeXML url

/-- JavaScript `Math.round`: round half toward positive infinity. -/
def jsRound (q : ℚ) : ℤ :=
  ⌊q + 1 / 2⌋

/-- Hex digits of a natural number, two-padded
(`n.toString(16).padStart(2, "0")` in `normalizeColor`). -/
def hex2 (n : Nat) : String :=
  let ds := Nat.toDigits 16 n
  ⟨List.replicate (2 - ds.length) '0' ++ ds⟩

/-- Maximal runs of decimal digits in a character list, the model of
`color.match(/\d+/g)` in `normalizeColor`. -/
def digitRunsAux : List Char → List Char → List (List Char)
  | [], acc => if acc.isEmpty then [] else [acc.reverse]
  | c :: cs, acc =>
    if c.isDigit then digitRunsAux cs (c :: acc)
    else if acc.isEmpty then digitRunsAux cs []
    else acc.reverse :: digitRunsAux cs []

/-- Maximal runs of decimal digits in a string. -/
def digitRuns (s : String) : List (List Char) :=
  digitRunsAux s.data []

/-- Decimal value of a digit run (`parseInt(run, 10)`). -/
def parseDec (run : List Char) : Nat :=
  run.foldl (fun n c => n * 10 + (c.toNat - '0'.toNat)) 0

/-- `normalizeColor` from `svgExport.ts`: `undefined`/empty become `none`; hex
passes through; `rgb(...)`/`rgba(...)` with at least three digit runs becomes a
hex triple; everything else is XML-escaped. -/
def normalizeColor (color : Option String) : String :=
  match color with
  | none => "none"
  | some c =>
    if c = "" then "none"
    else if strStartsWith c "#" then c
    else if strStartsWith c "rgb" then
      match digitRuns c with
      | r :: g :: b :: _ => "#" ++ hex2 (parseDec r) ++ hex2 (parseDec g) ++ hex2 (parseDec b)
      | _ => escapeXML c
    else escapeXML c

/-- `formatNumber` from `svgExport.ts`: round to two decimals
(`Math.round(num * 100) / 100`) and print the result without trailing zeros,
idealizing `Number.prototype.toString` on the rational model. -/
def formatNumber (num : ℚ) : String :=
  let m : ℤ := jsRound (num * 100)
  let sign := if m < 0 then "-" else ""
  let a := m.natAbs
  let ip := a / 100
  let fp := a % 100
  if fp = 0 then sign ++ toString ip
  else if fp % 10 = 0 then sign ++ toString ip ++ "." ++ toString (fp / 10)
  else if fp < 10 then sign ++ toString ip ++ ".0" ++ toString fp
  else sign ++ toString ip ++ "." ++ toString fp

/-- One iteration of the shape loop of `exportSVG_Native` in `App.tsx`: the SVG
element strings pushed onto `content` for the shape `s`. Shapes carrying a
truthy `groupId` are skipped (rendered with their group), and an image whose
sanitized URL is empty contributes nothing — the `href` attribute is not
emitted empty, the whole element is dropped. -/
def renderShape (s : Shape) : List String :=
  if truthyStr s.groupId then []
  else
    let rot := jsOrQ s.rotation 0
    let rotS := formatNumber rot
    let xS := formatNumber s.x
    let yS := formatNumber s.y
    let transform := if rot ≠ 0 then s!" transform=\"rotate({rotS} {xS} {yS})\"" else ""
    let strokeAttr :=
      if truthyStr s.stroke then
        let sc := normalizeColor s.stroke
        let sw := formatNumber (jsOrQ s.strokeWidth 1)
        s!" stroke=\"{sc}\" stroke-width=\"{sw}\""
      else ""
    let fillAttr :=
      if truthyStr s.fill then
        let fc := normalizeColor s.fill
        s!" fill=\"{fc}\""
      else " fill=\"none\""
    let opacityAttr :=
      if truthyQ s.opacity ∧ jsOrQ s.opacity 0 < 1 then
        let op := formatNumber (jsOrQ s.opacity 0)
        s!" opacity=\"{op}\""
      else ""
    match s.kind with
    | ShapeKind.rect w h cr =>
        let wS := formatNumber w
        let hS := formatNumber h
        let rxS := formatNumber (jsOrQ cr 0)
        [s!"<rect x=\"{xS}\" y=\"{yS}\" width=\"{wS}\" height=\"{hS}\" rx=\"{rxS}\"{fillAttr}{strokeAttr}{opacityAttr}{transform}/>"]
    | ShapeKind.circle r =>
        let rS := formatNumber r
        [s!"<circle cx=\"{xS}\" cy=\"{yS}\" r=\"{rS}\"{fillAttr}{strokeAttr}{opacityAttr}{transform}/>"]
    | ShapeKind.text txt fontSize _ align =>
        let fs := jsOrQ fontSize 24
        let fsS := formatNumber fs
        let tyS := formatNumber (s.y + fs)
        let tfill := normalizeColor (if truthyStr s.fill then s.fill else some "#0f172a")
        let alignAttr := match align with
          | some TextAlign.center => " text-anchor=\"middle\""
          | some TextAlign.right => " text-anchor=\"end\""
          | some TextAlign.left => " text-anchor=\"start\""
          | none => ""
        let escTxt := escapeXML txt
        [s!"<text x=\"{xS}\" y=\"{tyS}\" font-size=\"{fsS}\" fill=\"{tfill}\"{alignAttr}{opacityAttr}{transform}>{escTxt}</text>"]
    | ShapeKind.line pts _ _ =>
        let ptsS := String.intercalate "," (pts.map formatNumber)
        let lc := normalizeColor (if truthyStr s.stroke then s.stroke else some "#000")
        let lw := formatNumber (jsOrQ s.strokeWidth 1)
        [s!"<polyline points=\"{ptsS}\" fill=\"none\" stroke=\"{lc}\" stroke-width=\"{lw}\"{opacityAttr}{transform}/>"]
    | ShapeKind.arrow pts _ _ =>
        let ptsS := String.intercalate "," (pts.map formatNumber)
        let ac := normalizeColor (if truthyStr s.stroke then s.stroke else some "#000")
        let aw := formatNumber (jsOrQ s.strokeWidth 1)
        [s!"<polyline points=\"{ptsS}\" fill=\"none\" stroke=\"{ac}\" stroke-width=\"{aw}\" marker-end=\"url(#arrowhead)\"{opacityAttr}{transform}/>"]
    | ShapeKind.image src w h =>
        let wS := formatNumber (jsOrQ w 300)
        let hS := formatNumber (jsOrQ h 200)
        let safeSrc := sanitizeURL src
        if safeSrc ≠ "" then
          [s!"<image href=\"{safeSrc}\" x=\"{xS}\" y=\"{yS}\" width=\"{wS}\" height=\"{hS}\"{opacityAttr}{transform}/>"]
        else []
    | ShapeKind.group _ w h =>
        let wS := formatNumber (jsOrQ w 100)
        let hS := formatNumber (jsOrQ h 100)
        [s!"<rect x=\"{xS}\" y=\"{yS}\" width=\"{wS}\" height=\"{hS}\" fill=\"rgba(59, 130, 246, 0.05)\" stroke=\"#94a3b8\" stroke-width=\"1\" stroke-dasharray=\"8,4\"{opacityAttr}{transform}/>"]

/-- The scheme denylist of `sanitizeURL`, applied to the lower-cased and trimmed
URL: `javascript:`, `data:text/html`, `vbscript:`. -/
def denylisted (url : String) : Prop :=
  strStartsWith (jsTrim (jsToLower url)) "javascript:" = true ∨
  strStartsWith (jsTrim (jsToLower url)) "data:text/html" = true ∨
  strStartsWith (jsTrim (jsToLower url)) "vbscript:" = true

instance (url : String) : Decidable (denylisted url) := by
  unfold denylisted
  infer_instance

/-! ## Project loading (`loadJSON` in `App.tsx`)

The parsed JSON document is modeled as a `JValue`; the pieces of application
state that `loadJSON` can touch are collected in `AppState`. -/

/-- Parsed JSON values; `undef` stands for a missing property. -/
inductive JValue where
  | undef
  | null
  | bool (b : Bool)
  | num (q : ℚ)
  | str (s : String)
  | arr (elems : List JValue)
  | obj (fields : List (String × JValue))

/-- Property access `v.key` on a parsed value: `undef` off objects or for a
missing key. -/
def getField (v : JValue) (key : String) : JValue :=
  match v with
  | JValue.obj fields =>
    match fields.find? (fun p => p.1 = key) with
    | some p => p.2
    | none => JValue.undef
  | _ => JValue.undef

/-- `Array.isArray`. -/
def isArray (v : JValue) : Bool :=
  match v with
  | JValue.arr _ => true
  | _ => false

/-- JavaScript truthiness of a parsed value. -/
def truthyJ (v : JValue) : Bool :=
  match v with
  | JValue.undef => false
  | JValue.null => false
  | JValue.bool b => b
  | JValue.num q => q ≠ 0
  | JValue.str s => s ≠ ""
  | JValue.arr _ => true
  | JValue.obj _ => true

/-- JavaScript `a || b` on parsed values. -/
def jsOrJ (a b : JValue) : JValue :=
  if truthyJ a then a else b

/-- The canvas document held by the history: `{shapes, connectors}` as loaded
(the raw parsed values, exactly what `resetHistory` receives in `loadJSON`). -/
structure CanvasDoc where
  shapes : JValue
  connectors : JValue

/-- The application state that `loadJSON` can mutate: the history over the
canvas document, the background, the stage size, and the grid settings. -/
structure AppState where
  history : HistoryState CanvasDoc
  bg : JValue
  stageSize : JValue
  showGrid : Bool
  gridSize : JValue
  snapEnabled : Bool

/-- The `onload` body of `loadJSON` from `App.tsx` on an already-parsed
document: if `parsed.__shapes` is an array, reset the history to the loaded
document and apply background, stage size and (when present) grid settings;
otherwise leave the state untouched and alert the user. The returned `Option
String` is the alert message. -/
def loadJSON (parsed : JValue) (st : AppState) : AppState × Option String :=
  if isArray (getField parsed "__shapes") then
    let st1 : AppState :=
      { st with
        history := resetHistory
          { shapes := getField parsed "__shapes",
            connectors := jsOrJ (getField parsed "__connectors") (JValue.arr []) },
        bg := jsOrJ (getField parsed "__bg") (JValue.str "#ffffff"),
        stageSize := jsOrJ (getField parsed "__size")
          (JValue.obj [("width", JValue.num 1200), ("height", JValue.num 800)]) }
    let st2 : AppState :=
      if truthyJ (getField parsed "__grid") then
        { st1 with
          showGrid := truthyJ (getField (getField parsed "__grid") "showGrid"),
          gridSize := jsOrJ (getField (getField parsed "__grid") "gridSize") (JValue.num 20),
          snapEnabled := truthyJ (getField (getField parsed "__grid") "snapEnabled") }
      else st1
    (st2, none)
  else
    (st, some "This JSON isn\x27t a saved project from this app.")


/-! ## Concrete instances used by the closed theorems below -/

/-- A rectangle member that already belongs to a group `"g0"`. -/
def gA : Shape := { id := "a", kind := ShapeKind.rect 10 10 none, x := 0, y := 0, groupId := some "g0" }

/-- A plain rectangle member. -/
def gB : Shape := { id := "b", kind := ShapeKind.rect 10 10 none, x := 30, y := 0 }

/-- A rectangle for witness instantiations. -/
def wR1 : Shape := { id := "p", kind := ShapeKind.rect 20 10 none, x := 0, y := 0 }

/-- A second rectangle for witness instantiations. -/
def wR2 : Shape := { id := "q", kind := ShapeKind.rect 20 10 none, x := 40, y := 0 }

/-- A circle whose bounding box starts at `x - r = 50`, left of its position `x = 100`. -/
def cCirc : Shape := { id := "c", kind := ShapeKind.circle 50, x := 100, y := 100 }

/-- A rectangle to group together with `cCirc`. -/
def cRect : Shape := { id := "r", kind := ShapeKind.rect 10 10 none, x := 200, y := 200 }

/-- Three equal-width rectangles at positions 0, 50, 100 on the x axis. -/
def dRect1 : Shape := { id := "a", kind := ShapeKind.rect 10 10 none, x := 0, y := 0 }

/-- Second of the three distribution rectangles. -/
def dRect2 : Shape := { id := "b", kind := ShapeKind.rect 10 10 none, x := 50, y := 0 }

/-- Third of the three distribution rectangles. -/
def dRect3 : Shape := { id := "c", kind := ShapeKind.rect 10 10 none, x := 100, y := 0 }

/-- A connector endpoint with center (5, 5). -/
def rcA : Shape := { id := "A", kind := ShapeKind.rect 10 10 none, x := 0, y := 0 }

/-- A connector endpoint with center (25, 11): both center offsets are nonzero. -/
def rcB : Shape := { id := "B", kind := ShapeKind.rect 10 10 none, x := 20, y := 6 }

/-- An image shape whose URL uses the `javascript:` scheme. -/
def imgBad : Shape :=
  { id := "i", kind := ShapeKind.image "javascript:alert(1)" none none, x := 0, y := 0 }

/-- A persisted document whose `__shapes` property is a number, not an array. -/
def badDoc : JValue := JValue.obj [("__shapes", JValue.num 3)]

/-- A concrete application state to feed `loadJSON`. -/
def someState : AppState :=
  { history := resetHistory { shapes := JValue.arr [], connectors := JValue.arr [] },
    bg := JValue.str "#ffffff",
    stageSize := JValue.obj [("width", JValue.num 1200), ("height", JValue.num 800)],
    showGrid := true,
    gridSize := JValue.num 20,
    snapEnabled := false }


/-! ## History manager lemmas -/

/-- Under the depth bound the trim step is the identity. -/
theorem trimPast_of_le {T : Type u} (l : List T) (h : l.length ≤ MAX_HISTORY_LENGTH) :
    trimPast l = l := by
  unfold trimPast
  rw [if_neg (by omega)]

/-- `redo` is a left inverse of `undo` on states with a nonempty past. -/
theorem redo_undo {T : Type u} (s : HistoryState T) (hp : s.past ≠ []) :
    redo (undo s) = s := by
  obtain ⟨p, pres, fut⟩ := s
  induction p using List.reverseRecOn with
  | nil => exact absurd rfl hp
  | append_singleton l a _ =>
    simp [undo, List.getLast?_concat, List.dropLast_concat, redo]

/-- `undo` shortens a nonempty past by one. -/
theorem undo_past_length {T : Type u} (s : HistoryState T) (hp : s.past ≠ []) :
    (undo s).past.length = s.past.length - 1 := by
  obtain ⟨p, pres, fut⟩ := s
  induction p using List.reverseRecOn with
  | nil => exact absurd rfl hp
  | append_singleton l a _ =>
    simp [undo, List.getLast?_concat, List.dropLast_concat]

/-- Iterated `undo` then iterated `redo` is the identity while the past is deep
enough. -/
theorem redoN_undoN {T : Type u} (k : Nat) (s : HistoryState T) (hk : k ≤ s.past.length) :
    redo^[k] (undo^[k] s) = s := by
  induction k generalizing s with
  | zero => rfl
  | succ k ih =>
    have hp : s.past ≠ [] := by
      intro h
      rw [h] at hk
      simp at hk
    rw [Function.iterate_succ_apply undo, Function.iterate_succ_apply' redo]
    rw [ih (undo s) (by rw [undo_past_length s hp]; omega)]
    exact redo_undo s hp

/-- Unfolding lemma for `applyOps` on a cons. -/
theorem applyOps_cons {T : Type u} (s : HistoryState T) (v : T) (ops : List T) :
    applyOps s (v :: ops) = applyOps (setState s v false) ops := rfl

/-- After a sequence of non-skipped operations the present is the last operation
(or the original present when there is none). -/
theorem applyOps_present {T : Type u} (ops : List T) (s : HistoryState T) :
    (applyOps s ops).present = ops.getLast?.getD s.present := by
  induction ops generalizing s with
  | nil => rfl
  | cons v ops ih =>
    rw [applyOps_cons, ih]
    cases ops with
    | nil => rfl
    | cons w ops =>
      show (w :: ops).getLast?.getD v = (v :: w :: ops).getLast?.getD s.present
      rw [List.getLast?_cons_cons]
      cases hlast : (w :: ops).getLast? with
      | none => simp at hlast
      | some x => rfl

/-- While the depth bound is not reached, each non-skipped operation grows the
past by exactly one. -/
theorem applyOps_past_length {T : Type u} (ops : List T) (s : HistoryState T)
    (hb : s.past.length + ops.length ≤ MAX_HISTORY_LENGTH) :
    (applyOps s ops).past.length = s.past.length + ops.length := by
  induction ops generalizing s with
  | nil => rfl
  | cons v ops ih =>
    rw [applyOps_cons]
    have h1 : (setState s v false).past.length = s.past.length + 1 := by
      simp only [setState, if_neg Bool.false_ne_true]
      rw [trimPast_of_le]
      · simp
      · simp only [List.length_append, List.length_cons, List.length_nil]
        simp at hb ⊢
        omega
    rw [ih (setState s v false) (by rw [h1]; simp at hb ⊢; omega), h1]
    simp at hb ⊢
    omega

/-! ## The claims about the history manager -/

/-- C1: starting from a history with empty past and future, applying N non-skipped
`setState` calls (N at most the history bound) and then calling `undo` N times
followed by `redo` N times restores the full post-Nth-operation history state;
in particular the present equals the state passed to the N-th `setState`. -/
theorem history_undo_redo_roundtrip (T : Type) (init : T) (ops : List T)
    (hne : ops ≠ []) (hlen : ops.length ≤ MAX_HISTORY_LENGTH) :
    redo^[ops.length] (undo^[ops.length] (applyOps ⟨[], init, []⟩ ops)) =
      applyOps ⟨[], init, []⟩ ops ∧
    (redo^[ops.length] (undo^[ops.length] (applyOps ⟨[], init, []⟩ ops))).present =
      ops.getLast hne := by
  have hpast : (applyOps (⟨[], init, []⟩ : HistoryState T) ops).past.length = ops.length := by
    have h := applyOps_past_length ops (⟨[], init, []⟩ : HistoryState T) (by simpa using hlen)
    simpa using h
  have h1 : redo^[ops.length] (undo^[ops.length] (applyOps ⟨[], init, []⟩ ops)) =
      applyOps ⟨[], init, []⟩ ops :=
    redoN_undoN ops.length _ (le_of_eq hpast.symm)
  refine ⟨h1, ?_⟩
  rw [h1, applyOps_present]
  rw [List.getLast?_eq_getLast _ hne]
  rfl

/-- C1 witness: three operations on the numeric history, round-tripped. -/
theorem history_undo_redo_roundtrip_witness :
    (redo^[3] (undo^[3] (applyOps (⟨[], 0, []⟩ : HistoryState ℕ) [1, 2, 3]))).present = 3 := by
  have h := history_undo_redo_roundtrip ℕ 0 [1, 2, 3] (by decide) (by decide)
  exact h.2

/-- C2: a non-skipped `setState` sets the present to the new value, clears the
future unconditionally and pushes the old present onto the past (the old present
is the most recent past entry, and the push is an exact append whenever the
depth bound is not yet reached; at the bound the oldest entry is dropped); a
skipped `setState` replaces the present only, leaving past and future unchanged. -/
theorem setState_push_and_skip (T : Type) (s : HistoryState T) (v : T) :
    (setState s v false).present = v ∧
    (setState s v false).future = [] ∧
    (setState s v false).past.getLast? = some s.present ∧
    (s.past.length < MAX_HISTORY_LENGTH → (setState s v false).past = s.past ++ [s.present]) ∧
    setState s v true = { past := s.past, present := v, future := s.future } := by
  refine ⟨rfl, rfl, ?_, ?_, rfl⟩
  · show (trimPast (s.past ++ [s.present])).getLast? = some s.present
    unfold trimPast
    split
    · cases hp : s.past with
      | nil =>
        rename_i hlong
        rw [hp] at hlong
        simp [MAX_HISTORY_LENGTH] at hlong
      | cons a as =>
        simp [List.getLast?_concat]
    · exact List.getLast?_concat _
  · intro hlt
    show trimPast (s.past ++ [s.present]) = s.past ++ [s.present]
    apply trimPast_of_le
    simp
    omega

/-- C2 witness: pushing onto an empty history. -/
theorem setState_push_and_skip_witness :
    (setState (⟨[], 0, []⟩ : HistoryState ℕ) 5 false).past = [0] := by
  have h := setState_push_and_skip ℕ ⟨[], 0, []⟩ 5
  exact h.2.2.2.1 (by decide)

/-! ## Grouping engine lemmas -/

/-- Marking members with a fresh group id never produces the group id itself. -/
theorem find?_map_mark_none (gid : String) (shapes : List Shape) (sel : List String)
    (hfresh : ∀ sh ∈ shapes, sh.id ≠ gid) :
    (shapes.map fun sh =>
       if sel.contains sh.id then { sh with groupId := some gid } else sh).find?
      (fun s => s.id = gid) = none := by
  apply List.find?_eq_none.mpr
  intro x hx
  obtain ⟨sh, hsh, rfl⟩ := List.mem_map.mp hx
  have hid : (if sel.contains sh.id then { sh with groupId := some gid } else sh).id = sh.id := by
    split <;> rfl
  simp only [hid]
  simpa using hfresh sh hsh

/-- Unfolding of `groupSelected` on a selection of at least two ids: the members
are marked with the fresh id and the new group shape is appended. -/
theorem groupSelected_eq (gid : String) (shapes : List Shape) (sel : List String)
    (hsel : 2 ≤ sel.length) :
    groupSelected gid shapes sel =
      ((shapes.map fun sh =>
          if sel.contains sh.id then { sh with groupId := some gid } else sh) ++
        [{ id := gid,
           kind := ShapeKind.group sel
             (some (maxQ ((shapes.filter fun sh => sel.contains sh.id).map groupRight) -
               minQ ((shapes.filter fun sh => sel.contains sh.id).map Shape.x)))
             (some (maxQ ((shapes.filter fun sh => sel.contains sh.id).map groupBottom) -
               minQ ((shapes.filter fun sh => sel.contains sh.id).map Shape.y))),
           x := minQ ((shapes.filter fun sh => sel.contains sh.id).map Shape.x),
           y := minQ ((shapes.filter fun sh => sel.contains sh.id).map Shape.y),
           name := some ("Group of " ++ toString sel.length),
           draggable := some true }],
       [gid]) := by
  unfold groupSelected
  rw [if_neg (by omega)]

/-- `ungroupSelected` applied right after a grouping: it removes the appended
group shape, clears `groupId` on the members and re-selects the member list. -/
theorem ungroup_of_group (shapes : List Shape) (sel : List String) (gid : String) (G : Shape)
    (hGid : G.id = gid) (w h : Option ℚ) (hGkind : G.kind = ShapeKind.group sel w h)
    (hfresh : ∀ sh ∈ shapes, sh.id ≠ gid) :
    ungroupSelected
      ((shapes.map fun sh =>
         if sel.contains sh.id then { sh with groupId := some gid } else sh) ++ [G])
      [gid] =
      (shapes.map fun sh =>
        if sel.contains sh.id then { sh with groupId := none } else sh, sel) := by
  have hf : ((shapes.map fun sh =>
      if sel.contains sh.id then { sh with groupId := some gid } else sh) ++ [G]).find?
      (fun s => s.id = gid) = some G := by
    rw [List.find?_append, find?_map_mark_none gid shapes sel hfresh]
    simp [List.find?, hGid]
  unfold ungroupSelected
  dsimp only
  rw [hf]
  dsimp only
  rw [hGkind]
  dsimp only
  have hfilter : (((shapes.map fun sh =>
      if sel.contains sh.id then { sh with groupId := some gid } else sh) ++ [G]).filter
      (fun sh => sh.id ≠ gid)) =
      (shapes.map fun sh =>
        if sel.contains sh.id then { sh with groupId := some gid } else sh) := by
    rw [List.filter_append]
    have h1 : ((shapes.map fun sh =>
        if sel.contains sh.id then { sh with groupId := some gid } else sh).filter
        (fun sh => sh.id ≠ gid)) =
        (shapes.map fun sh =>
          if sel.contains sh.id then { sh with groupId := some gid } else sh) := by
      apply List.filter_eq_self.mpr
      intro a ha
      obtain ⟨sh, hsh, rfl⟩ := List.mem_map.mp ha
      have hid : (if sel.contains sh.id then { sh with groupId := some gid } else sh).id
          = sh.id := by
        split <;> rfl
      simp only [hid]
      simpa using hfresh sh hsh
    have h2 : ([G].filter (fun sh => sh.id ≠ gid)) = [] := by
      simp [List.filter, hGid]
    rw [h1, h2, List.append_nil]
  rw [hfilter, List.map_map]
  congr 1
  apply List.map_congr_left
  intro sh hsh
  dsimp only [Function.comp]
  by_cases hc : sel.contains sh.id = true
  · rw [if_pos hc]
    dsimp only
    rw [if_pos hc]
    rw [if_pos hc]
  · rw [if_neg hc, if_neg hc]

/-! ## The claims about grouping -/

/-- C3 counterexample: a member that already carried `groupId = "g0"` before the
grouping ends the group-then-ungroup round trip with `groupId` cleared to
`undefined`, so its `groupId` value is not restored. -/
theorem group_ungroup_groupId_not_restored :
    (ungroupSelected (groupSelected "g1" [gA, gB] ["a", "b"]).1
        (groupSelected "g1" [gA, gB] ["a", "b"]).2).1.map Shape.groupId = [none, none] ∧
    [gA, gB].map Shape.groupId = [some "g0", none] ∧
    (ungroupSelected (groupSelected "g1" [gA, gB] ["a", "b"]).1
        (groupSelected "g1" [gA, gB] ["a", "b"]).2).1.map Shape.groupId ≠
      [gA, gB].map Shape.groupId := by
  refine ⟨by decide, by decide, by decide⟩

/-- C3 (amended): for any selection of at least 2 ids and a fresh group id,
`group` followed immediately by `ungroup` restores the selection set exactly and
returns every shape unchanged except that each selected member ends with
`groupId` cleared to `undefined` — so positions are always restored, and the
original `groupId` values are restored exactly when no selected member belonged
to a group before. -/
theorem group_ungroup_roundtrip (gid : String) (shapes : List Shape) (sel : List String)
    (hsel : 2 ≤ sel.length) (hfresh : ∀ sh ∈ shapes, sh.id ≠ gid) :
    (ungroupSelected (groupSelected gid shapes sel).1 (groupSelected gid shapes sel).2).2 = sel ∧
    (ungroupSelected (groupSelected gid shapes sel).1 (groupSelected gid shapes sel).2).1 =
      shapes.map (fun sh => if sel.contains sh.id then { sh with groupId := none } else sh) ∧
    ((∀ sh ∈ shapes, sel.contains sh.id = true → sh.groupId = none) →
      (ungroupSelected (groupSelected gid shapes sel).1 (groupSelected gid shapes sel).2).1 =
        shapes) := by
  have hg := groupSelected_eq gid shapes sel hsel
  rw [hg]
  dsimp only
  rw [ungroup_of_group shapes sel gid _ rfl _ _ rfl hfresh]
  refine ⟨rfl, rfl, ?_⟩
  intro hnone
  have hid : ∀ sh ∈ shapes,
      (if sel.contains sh.id then { sh with groupId := none } else sh) = sh := by
    intro sh hsh
    by_cases hc : sel.contains sh.id = true
    · rw [if_pos hc]
      have hgnone := hnone sh hsh hc
      obtain ⟨i, k, x, y, r, f, st, sw, d, o, n, g⟩ := sh
      dsimp only at hgnone
      rw [hgnone]
    · rw [if_neg hc]
  dsimp only
  rw [List.map_congr_left hid]
  exact List.map_id' shapes

/-- C3 witness: two ungrouped rectangles, grouped and ungrouped. -/
theorem group_ungroup_roundtrip_witness :
    (ungroupSelected (groupSelected "g1" [wR1, wR2] ["p", "q"]).1
        (groupSelected "g1" [wR1, wR2] ["p", "q"]).2).2 = ["p", "q"] := by
  have h := group_ungroup_roundtrip "g1" [wR1, wR2] ["p", "q"] (by decide) (by decide)
  exact h.1

/-- C4 counterexample: grouping a circle at (100,100) with radius 50 and a small
rectangle at (200,200) places the group shape at x = 100 (the minimum member
position), while the union of the member bounding boxes starts at x = 50
(the circle box spans x-r to x+r), so the group is not placed at the union
minimum. -/
theorem group_bbox_min_counterexample :
    ((groupSelected "g" [cCirc, cRect] ["c", "r"]).1.map Shape.x).getLast? = some 100 ∧
    minQ (([cCirc, cRect].filter fun sh => (["c", "r"].contains sh.id)).map
      (fun s => (getBBox s).x)) = 50 ∧
    ((groupSelected "g" [cCirc, cRect] ["c", "r"]).1.map Shape.x).getLast? ≠
      some (minQ (([cCirc, cRect].filter fun sh => (["c", "r"].contains sh.id)).map
        (fun s => (getBBox s).x))) := by
  refine ⟨?_, ?_, ?_⟩ <;>
    simp +decide [groupSelected, minQ, maxQ, getBBox, cCirc, cRect, jsOrQ, anyWidth, anyHeight,
      min_def] <;> norm_num

/-- C4 (amended): for a selection of at least 2 ids resolving to at least one
shape, the new group shape (appended last) is placed at the minimum of the
member positions (min of `x`, min of `y`) — not at the minimum of the member
bounding boxes — and sized to the per-kind maxima minus that position minimum,
where the right extent is `x+width` for a rectangle, `x+radius` for a circle,
`x+(width or 300)` for an image and `x+100` for any other kind (and likewise
vertically with 200 for images); it stores the member id list and every member
gets `groupId` set to the new id. -/
theorem group_shape_position_size (gid : String) (shapes : List Shape) (sel : List String)
    (hsel : 2 ≤ sel.length)
    (hne : shapes.filter (fun sh => sel.contains sh.id) ≠ []) :
    (groupSelected gid shapes sel).2 = [gid] ∧
    (groupSelected gid shapes sel).1.dropLast =
      shapes.map (fun sh => if sel.contains sh.id then { sh with groupId := some gid } else sh) ∧
    (groupSelected gid shapes sel).1.getLast? = some
      { id := gid,
        kind := ShapeKind.group sel
          (some (maxQ ((shapes.filter fun sh => sel.contains sh.id).map groupRight) -
            minQ ((shapes.filter fun sh => sel.contains sh.id).map Shape.x)))
          (some (maxQ ((shapes.filter fun sh => sel.contains sh.id).map groupBottom) -
            minQ ((shapes.filter fun sh => sel.contains sh.id).map Shape.y))),
        x := minQ ((shapes.filter fun sh => sel.contains sh.id).map Shape.x),
        y := minQ ((shapes.filter fun sh => sel.contains sh.id).map Shape.y),
        name := some ("Group of " ++ toString sel.length),
        draggable := some true } := by
  rw [groupSelected_eq gid shapes sel hsel]
  exact ⟨rfl, List.dropLast_concat .., List.getLast?_concat _⟩

/-- C4 witness: grouping two rectangles. -/
theorem group_shape_position_size_witness :
    (groupSelected "g" [wR1, wR2] ["p", "q"]).2 = ["g"] := by
  have h := group_shape_position_size "g" [wR1, wR2] ["p", "q"] (by decide) (by decide)
  exact h.1

/-! ## The claims about the layout engine -/

/-- C5: evaluation of `distribute` at three equal-width rectangles anchored at
x = 0 and x = 100. The interior rectangle is moved to x = 10, flush against the
first box (gap 0, then gap 80 before the last box), while equal gaps would put
it at x = 50 — the code does not produce equal-gap positions. -/
theorem distribute_unequal_gaps_eval :
    (distribute Axis.h [dRect1, dRect2, dRect3] ["a", "b", "c"]).map Shape.x = [0, 10, 100] ∧
    distribute Axis.h [dRect1, dRect2, dRect3] ["a", "b", "c"] ≠
      [dRect1, { dRect2 with x := 50 }, dRect3] := by
  constructor
  · simp +decide [distribute, stableSortBy, insertByKeyLt, getBBox, jsOrQ, anyWidth, anyHeight,
      dRect1, dRect2, dRect3, List.getLastI, List.headI]
  · intro heq
    have hx := congrArg (fun l => l.map Shape.x) heq
    simp +decide [distribute, stableSortBy, insertByKeyLt, getBBox, jsOrQ, anyWidth, anyHeight,
      dRect1, dRect2, dRect3, List.getLastI, List.headI] at hx

/-! ## The claims about the connector router -/

/-- C6 counterexample: for two rectangles with centers (5,5) and (25,11) the two
routes bend at different corners — `route(B,A)` is not the reversal of
`route(A,B)`. -/
theorem route_reversal_counterexample :
    routeConnector rcA rcB = [5, 5, 25, 5, 25, 11] ∧
    routeConnector rcB rcA = [25, 11, 5, 11, 5, 5] ∧
    routeConnector rcB rcA ≠ reversePolyline (routeConnector rcA rcB) := by
  refine ⟨?_, ?_, ?_⟩ <;>
    simp +decide [routeConnector, reversePolyline, shapeCenter, getBBox, horizontalFirst,
      jsOrQ, anyWidth, anyHeight, rcA, rcB, abs] <;> norm_num

/-- C6 (amended): `route(A,B)` and `route(B,A)` always choose the same elbow
orientation — horizontal-first exactly when the center distance satisfies
|dx| > |dy| — and `route(B,A)` starts at the end point of `route(A,B)` and ends
at its start point; but the bend of the reverse route lies at the opposite
corner of the elbow, so the two polylines are in general not element-wise
reversals of each other. -/
theorem route_orientation_and_endpoints (A B : Shape) :
    (horizontalFirst A B ↔
      |(shapeCenter A).1 - (shapeCenter B).1| > |(shapeCenter A).2 - (shapeCenter B).2|) ∧
    (horizontalFirst A B ↔ horizontalFirst B A) ∧
    (routeConnector B A).take 2 = (routeConnector A B).drop 4 ∧
    (routeConnector B A).drop 4 = (routeConnector A B).take 2 := by
  refine ⟨Iff.rfl, ?_, ?_, ?_⟩
  · unfold horizontalFirst
    rw [abs_sub_comm ((shapeCenter A).1) ((shapeCenter B).1),
      abs_sub_comm ((shapeCenter A).2) ((shapeCenter B).2)]
  · simp [routeConnector]
  · simp [routeConnector]

/-! ## The claims about export sanitization -/

/-- A URL matching the scheme denylist sanitizes to the empty string. -/
theorem sanitizeURL_denylisted_aux (url : String) (hb : denylisted url) :
    sanitizeURL url = "" := by
  unfold sanitizeURL
  split
  · rfl
  · rw [if_pos]
    rcases hb with h | h | h <;> simp [h]

/-- C9: the denylist test runs on the lower-cased, whitespace-trimmed URL, so a
URL differing from a denylisted scheme only by letter case or surrounding
whitespace is also blocked and `sanitizeURL` returns the empty string. -/
theorem sanitizeURL_lowercase_trim_blocks (url : String) (hb : denylisted url) :
    sanitizeURL url = "" :=
  sanitizeURL_denylisted_aux url hb

/-- C9 witness: a mixed-case URL with leading whitespace is blocked. -/
theorem sanitizeURL_lowercase_trim_blocks_witness :
    sanitizeURL "  JavaScript:alert(1)" = "" :=
  sanitizeURL_lowercase_trim_blocks "  JavaScript:alert(1)" (by decide)

/-- C7: an image shape whose URL matches the scheme denylist contributes no
element at all to the SVG export content — in particular no `href` attribute is
emitted for it, dropped rather than emitted empty or escaped. -/
theorem export_image_denylisted_no_href (s : Shape) (src : String) (w h : Option ℚ)
    (hk : s.kind = ShapeKind.image src w h) (hb : denylisted src) :
    renderShape s = [] := by
  unfold renderShape
  split
  · rfl
  · rw [hk]
    dsimp only
    rw [sanitizeURL_denylisted_aux src hb]
    simp

/-- C7 witness: the image with URL `javascript:alert(1)` serializes to nothing. -/
theorem export_image_denylisted_no_href_witness : renderShape imgBad = [] :=
  export_image_denylisted_no_href imgBad "javascript:alert(1)" none none rfl (by decide)

/-! ## The claim about project loading -/

/-- C8: when the `__shapes` property of a parsed document is not an array,
`loadJSON` alerts the user and performs zero mutation — the returned state (its
shape and connector document, history stacks, background, canvas size and grid
settings) is the input state unchanged. -/
theorem loadJSON_non_array_no_mutation (parsed : JValue) (st : AppState)
    (hna : isArray (getField parsed "__shapes") = false) :
    loadJSON parsed st = (st, some "This JSON isn\x27t a saved project from this app.") := by
  unfold loadJSON
  rw [hna]
  rfl

/-- C8 witness: loading a document whose `__shapes` is the number 3. -/
theorem loadJSON_non_array_no_mutation_witness :
    loadJSON badDoc someState =
      (someState, some "This JSON isn\x27t a saved project from this app.") :=
  loadJSON_non_array_no_mutation badDoc someState rfl

/-! ## The frame claim about the layout engine -/

/-- Mapping a shape list by a function that touches only `x`/`y` relates
pointwise to the original up to `erasePosition`. -/
theorem forall₂_erase_of_pointwise (f : Shape → Shape)
    (hf : ∀ a : Shape, erasePosition (f a) = erasePosition a) (l : List Shape) :
    List.Forall₂ (fun a b => erasePosition a = erasePosition b) l (l.map f) := by
  induction l with
  | nil => exact List.Forall₂.nil
  | cons a l ih => exact List.Forall₂.cons (hf a).symm ih

/-- C10: `alignSelected` and `distribute` preserve the length and order of the
shape list and relate the shapes pointwise (so the id sequence is preserved),
and each output shape agrees with its input shape on every field other than
`x` and `y` — `erasePosition` equality keeps id, kind (with sizes, points,
text), colors, stroke, rotation, opacity, name and `groupId` intact. -/
theorem align_distribute_frame_preservation (mode : AlignMode) (stageWidth stageHeight : ℚ)
    (axis : Axis) (shapes : List Shape) (selectedIds : List String) :
    List.Forall₂ (fun a b => erasePosition a = erasePosition b) shapes
      (alignSelected mode stageWidth stageHeight shapes selectedIds) ∧
    List.Forall₂ (fun a b => erasePosition a = erasePosition b) shapes
      (distribute axis shapes selectedIds) := by
  constructor
  · unfold alignSelected
    split
    · exact List.forall₂_same.mpr fun a _ => rfl
    · apply forall₂_erase_of_pointwise
      intro a
      dsimp only
      split
      · rfl
      · cases mode <;> rfl
  · cases axis <;>
    · unfold distribute
      dsimp only
      split
      · exact List.forall₂_same.mpr fun a _ => rfl
      · apply forall₂_erase_of_pointwise
        intro a
        dsimp only
        split
        · rfl
        · split
          · rfl
          · rfl

end FigureLab
